import Mathlib

/-!
Shallow embedding of the serverless backend of the portfolio repository,
centred on the game-statistics aggregation endpoint (`src/api/gamesData.js`),
the shared helpers (`src/api/_lib/utils.js`), the admin session check
(`src/api/_lib/auth.js`) and the admin gate (`src/api/admin/_require.js`).

JSON values are modelled by `JsValue`, with JS numbers as exact dyadic
rationals (every finite JS double is exactly `m / 2^e`; `Math.floor`,
sign tests and decimal printing are exact on them).  Network effects are
modelled by an oracle `net : String → NetOutcome` mapping each outbound URL
to the outcome of the one `fetch` the code would issue for it.
-/

namespace Portfolio

/-! ## String primitives (JS semantics, structural implementations) -/

/-- ECMAScript WhiteSpace or LineTerminator characters, as trimmed by
`String.prototype.trim`. -/
def isJsSpace (c : Char) : Bool :=
  c = ' ' || c = '\t' || c = '\n' || c = '\r'
    || c.toNat = 11 || c.toNat = 12 || c.toNat = 0xA0 || c.toNat = 0xFEFF
    || c.toNat = 0x1680 || (0x2000 ≤ c.toNat && c.toNat ≤ 0x200A)
    || c.toNat = 0x2028 || c.toNat = 0x2029 || c.toNat = 0x202F
    || c.toNat = 0x205F || c.toNat = 0x3000

/-- JS `s.trim()`: strip `isJsSpace` characters from both ends. -/
def jsTrim (s : String) : String :=
  String.mk (((s.data.dropWhile isJsSpace).reverse.dropWhile isJsSpace).reverse)

/-- Split a character list at every occurrence of `sep` (the separator is
dropped; an empty list yields one empty piece, like JS `"".split(sep)`). -/
def splitChars (sep : Char) : List Char → List (List Char)
  | [] => [[]]
  | c :: cs =>
    match splitChars sep cs with
    | [] => [[]]
    | t :: ts => if c = sep then [] :: t :: ts else (c :: t) :: ts

/-- JS `s.split(sep)` for a one-character separator. -/
def jsSplit (sep : Char) (s : String) : List String :=
  (splitChars sep s.data).map String.mk

/-- Numeric value of a list of decimal digit characters. -/
def charsToNat (cs : List Char) : Nat :=
  cs.foldl (fun n c => n * 10 + (c.toNat - '0'.toNat)) 0

/-! ## JS value model

JS numbers are carried as exact dyadic rationals `m / 2^e`: every finite JS
double is exactly of this form, and floor, comparison with zero and decimal
printing are exact on it.  NaN and the infinities are omitted; no claim
exercises them. -/

/-- A dyadic rational `m / 2^e`, the exact value of a finite JS double. -/
structure Dy where
  m : Int
  e : Nat
  deriving DecidableEq

/-- The value of a dyadic number as a rational. -/
def Dy.toRat (q : Dy) : ℚ := (q.m : ℚ) / (2 ^ q.e : ℕ)

/-- `Math.floor` on a dyadic number: floor division of the numerator by the
power of two. -/
def Dy.floor (q : Dy) : Int := Int.fdiv q.m (2 ^ q.e)

mutual

/-- Model of a parsed JSON / JS value (arrays and objects carry their own
spine types so that all recursion over them is structural). -/
inductive JsValue where
  | null
  | bool (b : Bool)
  | num (q : Dy)
  | str (s : String)
  | arr (xs : JsArr)
  | obj (fields : JsObj)

/-- Spine of a JSON array. -/
inductive JsArr where
  | nil
  | cons (hd : JsValue) (tl : JsArr)

/-- Spine of a JSON object: an ordered list of key/value fields. -/
inductive JsObj where
  | nil
  | cons (key : String) (val : JsValue) (tl : JsObj)

end

/-- Build a `JsArr` from a list (convenience for concrete fixtures). -/
def JsArr.ofList : List JsValue → JsArr
  | [] => .nil
  | x :: xs => .cons x (JsArr.ofList xs)

/-- Build a `JsObj` from a list of fields (convenience for fixtures). -/
def JsObj.ofList : List (String × JsValue) → JsObj
  | [] => .nil
  | (k, v) :: xs => .cons k v (JsObj.ofList xs)

/-- JS truthiness of a value (`if (v)`).  Objects and arrays are always
truthy; `0`, `""`, `false` and `null` are falsy. -/
def jsTruthy : JsValue → Bool
  | .null => false
  | .bool b => b
  | .num q => decide (q.m ≠ 0)
  | .str s => !s.isEmpty
  | .arr _ => true
  | .obj _ => true

/-- Last binding of a key in an object's field list (`JSON.parse` keeps the
last of duplicate keys). -/
def JsObj.findLast : JsObj → String → Option JsValue
  | .nil, _ => none
  | .cons key v tl, k =>
    match JsObj.findLast tl k with
    | some r => some r
    | none => if key = k then some v else none

/-- Property access `v.k` on a JS value obtained from `JSON.parse`: `none`
models `undefined` (absent field or non-object receiver). -/
def getField : JsValue → String → Option JsValue
  | .obj fields, k => fields.findLast k
  | _, _ => none

/-- Lookup in a string-keyed assoc list built by repeated `m[k] = v`
assignments (modelled as appends): the last write wins. -/
def objLookup (m : List (String × α)) (k : String) : Option α :=
  (m.reverse.find? (fun p => p.1 == k)).map (fun p => p.2)

/-- Overwriting write `m.set(k, v)` of a JS `Map`, modelled as an append
(reads go through the last-write-wins `objLookup`). -/
def mapSet (m : List (String × α)) (k : String) (v : α) : List (String × α) :=
  m ++ [(k, v)]

/-- Decimal digits of the fractional part `num/den` (long division), with
fuel.  Exact whenever the expansion terminates within the fuel. -/
def fracDigits (num den : Nat) : Nat → String
  | 0 => ""
  | fuel + 1 =>
    if num = 0 then ""
    else
      let n10 := num * 10
      (Nat.digitChar (n10 / den)).toString ++ fracDigits (n10 % den) den fuel

/-- JS `String(n)` for a finite number, modelled as sign, integer part and
the exact decimal digits of the fractional part (a dyadic `m / 2^e` needs at
most `e` fractional digits, so fuel `e + 1` makes the expansion exact).
This coincides with what JS prints exactly on the integers of magnitude at
most 2^53 - which covers every ID and count the upstream APIs produce - and
on short fractions such as -1.5; JS otherwise prints shortest-round-trip
digits and switches to exponential notation outside [1e-6, 1e21), which is
not modelled, so no theorem asserts a string produced by this function
outside the safe-integer range. -/
def jsNumToString (q : Dy) : String :=
  let sign := if q.m < 0 then "-" else ""
  let den := 2 ^ q.e
  let a := q.m.natAbs
  let ip := a / den
  let fr := a % den
  if fr = 0 then sign ++ toString ip
  else sign ++ toString ip ++ "." ++ fracDigits fr den (q.e + 1)

mutual

/-- JS `String(v)` coercion: `null`/booleans/numbers/strings print the usual
way, arrays join their elements with commas (with `null` elements printing as
the empty string), plain objects print as `[object Object]`. -/
def jsToString : JsValue → String
  | .null => "null"
  | .bool b => cond b "true" "false"
  | .num q => jsNumToString q
  | .str s => s
  | .arr xs => jsArrJoin xs
  | .obj _ => "[object Object]"
termination_by structural v => v

/-- Comma-join of array elements, as in `Array.prototype.toString` (a `null`
element prints as the empty string). -/
def jsArrJoin : JsArr → String
  | .nil => ""
  | .cons x tl =>
    (match x with
      | .null => ""
      | x => jsToString x)
      ++ (match tl with
        | .nil => ""
        | _ => "," ++ jsArrJoin tl)
termination_by structural xs => xs

end

/-! ## Request model and shared helpers (`src/api/_lib/utils.js`) -/

/-- The slice of a Node request the embedded handlers read: the HTTP method,
the forwarding headers, the transport-level peer address, the decoded `ids`
query parameter (`url.searchParams.get` yields `none` when absent), the
`cookie` header and the `x-csrf-token` header.  `none` models an absent
header. -/
structure Req where
  method : String
  xForwardedFor : Option String
  xRealIp : Option String
  socketAddr : Option String
  idsParam : Option String
  cookieHeader : Option String
  csrfHeader : Option String

/-- `getClientIp` (`utils.js`): first comma-separated value of
`x-forwarded-for` (trimmed) when that header is a non-empty string, else the
trimmed `x-real-ip` when non-empty, else the socket's remote address when
truthy, else `"0.0.0.0"`. -/
def getClientIp (r : Req) : String :=
  match r.xForwardedFor with
  | some xf =>
    if !xf.isEmpty then jsTrim ((jsSplit ',' xf).headD "")
    else match r.xRealIp with
      | some xr =>
        if !xr.isEmpty then jsTrim xr
        else match r.socketAddr with
          | some sa => if !sa.isEmpty then sa else "0.0.0.0"
          | none => "0.0.0.0"
      | none => match r.socketAddr with
          | some sa => if !sa.isEmpty then sa else "0.0.0.0"
          | none => "0.0.0.0"
  | none => match r.xRealIp with
      | some xr =>
        if !xr.isEmpty then jsTrim xr
        else match r.socketAddr with
          | some sa => if !sa.isEmpty then sa else "0.0.0.0"
          | none => "0.0.0.0"
      | none => match r.socketAddr with
          | some sa => if !sa.isEmpty then sa else "0.0.0.0"
          | none => "0.0.0.0"

/-! ## ID validation (`validatePlaceIds`, `src/api/gamesData.js` lines 24-34) -/

/-- The test `/^\d{1,20}$/.test(id)`: between 1 and 20 characters, all ASCII
digits. -/
def isValidPid (s : String) : Bool :=
  decide (1 ≤ s.length) && decide (s.length ≤ 20) && s.data.all Char.isDigit

/-- The body of the `for (const r of raw)` loop of `validatePlaceIds`: trim
the token, push it onto `out` when it matches the pattern, and stop as soon
as `out` holds 20 entries. -/
def validateLoop : List String → List String → List String
  | [], out => out
  | r :: rest, out =>
    let id := jsTrim r
    let out' := if isValidPid id then out ++ [id] else out
    if 20 ≤ out'.length then out' else validateLoop rest out'

/-- `validatePlaceIds(idsStr)`: empty input yields `[]`; otherwise split on
commas and run the retention loop. -/
def validatePlaceIds (idsStr : String) : List String :=
  if idsStr = "" then [] else validateLoop (jsSplit ',' idsStr) []

/-! ## Rate limiter (`rateLimit`, `src/api/gamesData.js` lines 10-22) -/

/-- One `rateLimit(ip, limit, windowSec)` step on the bucket stored for the
key: prune entries outside the window, deny (keeping the pruned bucket)
when the pruned bucket has reached the limit, otherwise record `now` and
admit.  Returns (admitted?, new bucket).  Timestamps are milliseconds. -/
def rateLimit (bucket : List Int) (now : Int) (limit : Nat) (windowSec : Int) :
    Bool × List Int :=
  let fresh := bucket.filter (fun t => now - t < windowSec * 1000)
  if limit ≤ fresh.length then (false, fresh)
  else (true, fresh ++ [now])

/-! ## Outbound fetch (`fetchJson`, `src/api/gamesData.js` lines 36-56) -/

/-- `ALLOWED_HOSTS` of `gamesData.js`. -/
def ALLOWED_HOSTS : List String :=
  ["apis.roblox.com", "games.roblox.com", "thumbnails.roblox.com"]

/-- An outbound URL, split into the `host` component `new URL(url).host`
would yield and the rest (path and query). -/
structure Url where
  host : String
  pathQuery : String
  deriving DecidableEq

/-- The URL string the code passes to `fetch` (all call sites use https). -/
def urlString (u : Url) : String := "https://" ++ u.host ++ u.pathQuery

/-- Outcome of the single `fetch` the code would issue for a URL: a 2xx
response with a JSON body, a non-2xx response (`res.ok` false), a redirect
(thrown under `redirect: 'error'`), an abort by the 8s timeout, a network
error, or a 2xx response whose body fails to parse (`res.json()` throws). -/
inductive NetOutcome where
  | success (body : JsValue)
  | httpError
  | redirected
  | timedOut
  | networkError
  | malformedBody

/-- `fetchJson(url)`: hosts outside `ALLOWED_HOSTS` are refused up front
(`null` without any fetch); otherwise the fetch outcome is consulted, every
non-success outcome collapsing to `null` via the `catch`/`!res.ok` paths. -/
def fetchJson (net : String → NetOutcome) (u : Url) : Option JsValue :=
  if u.host ∈ ALLOWED_HOSTS then
    match net (urlString u) with
    | .success j => some j
    | _ => none
  else none

/-- Whether `fetchJson` reaches the `fetch` call at all: exactly when the
host passed the allow-list guard. -/
def fetchAttempted (u : Url) : Bool := decide (u.host ∈ ALLOWED_HOSTS)

/-- URL of the place-to-universe lookup for one place ID. -/
def universeUrl (pid : String) : Url :=
  ⟨"apis.roblox.com", "/universes/v1/places/" ++ pid ++ "/universe"⟩

/-- URL of the batched game-metadata call for a `universeIds` parameter. -/
def gamesUrl (param : String) : Url :=
  ⟨"games.roblox.com", "/v1/games?universeIds=" ++ param⟩

/-- URL of the batched game-icon call for a `universeIds` parameter. -/
def iconsUrl (param : String) : Url :=
  ⟨"thumbnails.roblox.com",
    "/v1/games/icons?universeIds=" ++ param ++ "&size=420x420&format=Png&isCircular=false"⟩

/-! ## Canonical-ID resolution (`placeToUniverseId`, lines 58-63) -/

/-- `placeToUniverseId` applied to the parsed body of its lookup (`none`
models the `null` that `fetchJson` returns on any failure): a numeric
`universeId` is stringified, an all-digit string `universeId` is returned
as-is, and every other shape falls back to the original place ID. -/
def placeToUniverseId (placeId : String) (resp : Option JsValue) : String :=
  match resp with
  | some d =>
    if jsTruthy d then
      match getField d "universeId" with
      | some (.num q) => jsNumToString q
      | some (.str s) => if !s.isEmpty && s.data.all Char.isDigit then s else placeId
      | _ => placeId
    else placeId
  | none => placeId

/-- Resolution of one place ID through the upstream lookup under the network
oracle `net`. -/
def resolveU (net : String → NetOutcome) (pid : String) : String :=
  placeToUniverseId pid (fetchJson net (universeUrl pid))

/-! ## Deduplication and JS object key order (lines 82-87)

`universeMap` is a plain JS object whose keys are the retained place IDs.
Its key set is the set of distinct place IDs (reassignment of an existing
key neither duplicates nor reorders it), and `Object.values` walks keys in
the JS object order: array-index-like keys ascending numerically first,
then the remaining keys in insertion order.  `[...new Set(xs)]` keeps the
first occurrence of each element. -/

/-- `[...new Set(xs)]`: first occurrence of each element, in order. -/
def jsSetDedup (l : List String) : List String :=
  l.foldl (fun acc x => if x ∈ acc then acc else acc ++ [x]) []

/-- Whether a string key is a JS array index (canonical decimal integer
below 2^32 - 1); such keys are enumerated first, in ascending numeric
order. -/
def isArrayIndexKey (s : String) : Bool :=
  !s.isEmpty && s.data.all Char.isDigit && (s == "0" || decide (s.front ≠ '0'))
    && decide (charsToNat s.data < 4294967295)

/-- Numeric value of an array-index key. -/
def keyVal (s : String) : Nat := charsToNat s.data

/-- Insertion into a list kept ascending by `keyVal`. -/
def insertAsc (x : String) : List String → List String
  | [] => [x]
  | y :: ys => if keyVal x < keyVal y then x :: y :: ys else y :: insertAsc x ys

/-- Ascending sort by `keyVal` (insertion sort; the keys involved are
distinct, so stability is immaterial). -/
def sortByKeyVal : List String → List String
  | [] => []
  | x :: xs => insertAsc x (sortByKeyVal xs)

/-- JS object key enumeration order for a list of distinct keys:
array-index keys ascending numerically, then the rest in insertion order. -/
def objectKeyOrder (ks : List String) : List String :=
  sortByKeyVal (ks.filter isArrayIndexKey) ++ ks.filter (fun k => !isArrayIndexKey k)

/-- `Object.values(universeMap)` for the map built by
`for (const pid of placeIds) universeMap[pid] = await placeToUniverseId(pid)`:
the resolution of each distinct place ID, in JS object key order (the
resolution is a function of the place ID, so reassignment on a duplicate
stores the same value the first assignment did). -/
def universeValuesList (net : String → NetOutcome) (placeIds : List String) : List String :=
  (objectKeyOrder (jsSetDedup placeIds)).map (resolveU net)

/-- `uniqueUniverses = [...new Set(Object.values(universeMap))]`. -/
def uniqueUniverses (net : String → NetOutcome) (placeIds : List String) : List String :=
  jsSetDedup (universeValuesList net placeIds)

/-! ## Lookup-map construction (lines 89-105) -/

/-- The value stored in `gameInfo`: `{ name: g.name ?? null, visits: g.visits ?? null }`. -/
structure GameMeta where
  name : JsValue
  visits : JsValue

/-- Body of the `gameInfo` loop for one array element `g`: skip unless `g`
has a non-null `id`, otherwise append an entry keyed by `String(g.id)` with
`{ name: g.name ?? null, visits: g.visits ?? null }` (a later entry with the
same key overwrites via the last-write-wins lookup). -/
def infoStep (m : List (String × GameMeta)) (g : JsValue) : List (String × GameMeta) :=
  match getField g "id" with
  | some v =>
    match v with
    | .null => m
    | _ => m ++ [(jsToString v,
        ⟨(getField g "name").getD .null, (getField g "visits").getD .null⟩)]
  | none => m

/-- The `for (const g of infoData.data)` loop. -/
def infoLoop : JsArr → List (String × GameMeta) → List (String × GameMeta)
  | .nil, m => m
  | .cons g tl, m => infoLoop tl (infoStep m g)

/-- `gameInfo` built from the parsed metadata response: when the body has an
array `data` field, run the loop over its elements; any other shape leaves
the map empty. -/
def buildGameInfo (infoData : Option JsValue) : List (String × GameMeta) :=
  match infoData with
  | some d =>
    match getField d "data" with
    | some (.arr gs) => infoLoop gs []
    | _ => []
  | none => []

/-- Body of the `gameIcons` loop for one array element `i`: skip unless `i`
has a non-null `targetId` and a truthy `imageUrl`, otherwise append an entry
keyed by `String(i.targetId)`. -/
def iconStep (m : List (String × JsValue)) (i : JsValue) : List (String × JsValue) :=
  match getField i "targetId" with
  | some v =>
    match v with
    | .null => m
    | _ =>
      match getField i "imageUrl" with
      | some u => if jsTruthy u then m ++ [(jsToString v, u)] else m
      | none => m
  | none => m

/-- The `for (const i of iconData.data)` loop. -/
def iconLoop : JsArr → List (String × JsValue) → List (String × JsValue)
  | .nil, m => m
  | .cons i tl, m => iconLoop tl (iconStep m i)

/-- `gameIcons` built from the parsed icon response. -/
def buildGameIcons (iconData : Option JsValue) : List (String × JsValue) :=
  match iconData with
  | some d =>
    match getField d "data" with
    | some (.arr is) => iconLoop is []
    | _ => []
  | none => []

/-! ## Join loop (lines 107-115) -/

/-- One output record of the aggregation endpoint
(`{ inputId, universeId, name, visits, icon }`). -/
structure Record where
  inputId : String
  universeId : String
  name : JsValue
  visits : JsValue
  icon : JsValue

/-- One iteration of the join loop: look the resolved universe ID up in both
maps (`gameInfo[uid] || {name:null, visits:null}` and
`gameIcons[uid] || null`), push the record, and add `Math.floor(visits)` to
the running total when `visits` is a number.  The total is carried as an
exact integer; the source's `total += Math.floor(...)` is IEEE double
addition, which agrees with the exact integer as long as every partial sum
has magnitude at most 2^53 (the hypothesis under which the totalVisits
theorem asserts the total) and rounds beyond that. -/
def joinStep (rf : String → String) (gi : List (String × GameMeta))
    (gc : List (String × JsValue)) (acc : List Record × Int) (pid : String) :
    List Record × Int :=
  let uid := rf pid
  let info := (objLookup gi uid).getD ⟨.null, .null⟩
  let icon := match objLookup gc uid with
    | some v => if jsTruthy v then v else .null
    | none => .null
  let total := match info.visits with
    | .num q => acc.2 + q.floor
    | _ => acc.2
  (acc.1 ++ [⟨pid, uid, info.name, info.visits, icon⟩], total)

/-- The whole join loop over the retained place IDs, starting from an empty
output array and a zero total. -/
def joinFold (rf : String → String) (gi : List (String × GameMeta))
    (gc : List (String × JsValue)) (pids : List String) : List Record × Int :=
  pids.foldl (joinStep rf gi gc) ([], 0)

/-! ## The aggregation endpoint handler (`module.exports`, lines 65-121) -/

/-- JSON body the handler passes to `json(res, status, body)`: an error
envelope `{ok:false, error, code?}`, the success envelope
`{ok:true, data, totalVisits, count}`, or the empty `{}` of the OPTIONS
reply. -/
inductive Body where
  | err (error : String) (code : Option Nat)
  | success (data : List Record) (totalVisits : String) (count : Nat)
  | emptyObj

/-- A written HTTP response: status code and JSON body (headers are not
modelled). -/
structure Response where
  status : Nat
  body : Body

/-- The aggregation handler as a function of the network oracle, the current
time, the rate-limiter state (a map from client address to timestamp
bucket) and the request.  Returns the response, the new rate-limiter state,
and the list of outbound URLs on which a network call was attempted.
`String(total)` is modelled by exact integer printing, which is what JS
prints for totals of magnitude at most 2^53 (JS switches to exponential
form only at 10^21); the totalVisits theorem restricts itself to that
exact range. -/
def gamesHandler (net : String → NetOutcome) (now : Int)
    (rates : List (String × List Int)) (req : Req) :
    Response × List (String × List Int) × List Url :=
  if req.method = "OPTIONS" then (⟨204, .emptyObj⟩, rates, [])
  else if req.method ≠ "GET" then (⟨405, .err "Method not allowed" none⟩, rates, [])
  else
    let ip := getClientIp req
    let bucket := (objLookup rates ip).getD []
    let rl := rateLimit bucket now 30 60
    let rates' := mapSet rates ip rl.2
    if !rl.1 then
      (⟨429, .err "Rate limit exceeded. Please try again later." (some 429)⟩, rates', [])
    else
      let pids := validatePlaceIds (req.idsParam.getD "")
      if pids = [] then
        (⟨400, .err "No valid place IDs provided. IDs must be numeric." (some 400)⟩, rates', [])
      else
        let param := String.intercalate "," (uniqueUniverses net pids)
        let gi := buildGameInfo (fetchJson net (gamesUrl param))
        let gc := buildGameIcons (fetchJson net (iconsUrl param))
        let j := joinFold (resolveU net) gi gc pids
        (⟨200, .success j.1 (toString j.2) j.1.length⟩, rates',
          pids.map universeUrl ++ [gamesUrl param, iconsUrl param])

/-! ## Cookie parsing (`parseCookies`, `src/api/_lib/utils.js`) -/

/-- Value of a hex digit, if any. -/
def hexVal (c : Char) : Option Nat :=
  if '0' ≤ c ∧ c ≤ '9' then some (c.toNat - '0'.toNat)
  else if 'a' ≤ c ∧ c ≤ 'f' then some (c.toNat - 'a'.toNat + 10)
  else if 'A' ≤ c ∧ c ≤ 'F' then some (c.toNat - 'A'.toNat + 10)
  else none

/-- Single-byte model of `decodeURIComponent` on a character list: a valid
`%XX` escape becomes the character with that code, everything else passes
through.  Real `decodeURIComponent` differs on escapes: it throws a
`URIError` on malformed or non-UTF-8 escapes (a throw `parseCookies` does
not catch, so the real `requireAdmin` crashes there) and combines multi-byte
UTF-8 sequences; this total model collapses that error path.  It is
provably the identity on percent-free input (`pctDecode_id`), which is
exactly where real `decodeURIComponent` is the identity too, so every
cookie-dependent theorem either uses percent-free fixtures or carries a
percent-free hypothesis. -/
def pctDecodeChars : List Char → List Char
  | [] => []
  | '%' :: a :: b :: rest =>
    match hexVal a, hexVal b with
    | some x, some y => Char.ofNat (16 * x + y) :: pctDecodeChars rest
    | _, _ => '%' :: pctDecodeChars (a :: b :: rest)
  | c :: rest => c :: pctDecodeChars rest

/-- `decodeURIComponent` model on strings (see `pctDecodeChars` for the
domain on which it is faithful). -/
def pctDecode (s : String) : String := String.mk (pctDecodeChars s.data)

/-- `parseCookies(req)`: split the `cookie` header on `;`, trim each part,
split it on `=` into a key and the `=`-rejoined remainder, skip empty keys,
and store the decoded value (later occurrences of a key overwrite earlier
ones via the last-write-wins `objLookup`). -/
def parseCookies (header : String) : List (String × String) :=
  (jsSplit ';' header).foldl (fun out part =>
    match jsSplit '=' (jsTrim part) with
    | [] => out
    | k :: rest =>
      if k = "" then out
      else out ++ [(k, pctDecode (String.intercalate "=" rest))]) []

/-! ## Admin session check (`src/api/_lib/auth.js`) -/

/-- The environment variables the auth module reads (`none` models an unset
variable). -/
structure AdminEnv where
  adminAllowlist : Option String
  adminJwtSecret : Option String

/-- `parseAllowlist()`: split `ADMIN_ALLOWLIST` (default empty) on commas,
trim, and drop empty entries (`filter(Boolean)`). -/
def parseAllowlist (env : AdminEnv) : List String :=
  (((jsSplit ',' (env.adminAllowlist.getD "")).map jsTrim).filter
    (fun s => !s.isEmpty))

/-- `isIpAllowed(req)`: false on an empty allow-list (fail-closed comment in
the source); otherwise true when the caller's extracted address is listed,
or when the allow-list itself contains `"::1"` or `"127.0.0.1"`. -/
def isIpAllowed (env : AdminEnv) (req : Req) : Bool :=
  let ip := getClientIp req
  let allow := parseAllowlist env
  if allow.isEmpty then false
  else allow.contains ip || allow.contains "::1" || allow.contains "127.0.0.1"

/-- `getJwtSecret()`: the configured secret, required to be at least 16
characters (unset or short secrets yield `null`; the empty string is both
falsy and short). -/
def getJwtSecret (env : AdminEnv) : Option String :=
  match env.adminJwtSecret with
  | some s => if s.length < 16 then none else some s
  | none => none

/-- Result of `requireAdmin`: `{ok:true, payload, csrf}` or
`{ok:false, reason}`. -/
inductive AuthResult where
  | ok (payload : JsValue) (csrf : Option String)
  | fail (reason : String)

/-- `requireAdmin(req)` with `jwtVerify` abstracted as an oracle
`verify : token → secret → Option payload` (`some` exactly when the token's
signature verifies against the secret and its expiration claim has not
passed; `none` models the thrown verification error).  Session-cookie
lookups go through the parsed cookie map; an absent or empty token cookie
fails with reason `token`, and the `csrf` slot carries the `yd_csrf` cookie
with the empty string collapsed to `none` (`cookies[CSRF_COOKIE] || null`). -/
def requireAdmin (env : AdminEnv) (verify : String → String → Option JsValue)
    (req : Req) : AuthResult :=
  if !isIpAllowed env req then .fail "ip"
  else
    match getJwtSecret env with
    | none => .fail "secret"
    | some secret =>
      let cookies := parseCookies (req.cookieHeader.getD "")
      match objLookup cookies "yd_admin" with
      | none => .fail "token"
      | some token =>
        if token = "" then .fail "token"
        else
          match verify token secret with
          | some payload =>
            .ok payload (match objLookup cookies "yd_csrf" with
              | some c => if c = "" then none else some c
              | none => none)
          | none => .fail "invalid"

/-! ## Admin gate (`src/api/admin/_require.js` composed with its callers) -/

/-- Observable outcome of the gate prologue shared by the admin CRUD
handlers (`pricing`/`reviews` pattern): either no response is ever written
(the caller sees `ended` and returns), or a response has been written, or
the gate passes and the business logic runs. -/
inductive GateOutcome where
  | noResponse
  | response (r : Response)
  | proceed (payload : JsValue) (csrf : Option String)

/-- `requireAdminOr404` (with its default `requireCsrfForWrite = true`)
composed with the caller prologue
`if (!gate.ok) { if (gate.ended) return; return json(res, 404, ...) }`:
a failed `requireAdmin` yields `{ok:false, ended:true}` without writing
anything, so the caller returns with no response; on a mutating method a
missing, empty or mismatching `x-csrf-token` header writes a 403
`Invalid CSRF token` response; otherwise the handler proceeds. -/
def adminEndpointGate (env : AdminEnv) (verify : String → String → Option JsValue)
    (req : Req) : GateOutcome :=
  match requireAdmin env verify req with
  | .fail _ => .noResponse
  | .ok payload csrf =>
    let isWrite := req.method = "POST" ∨ req.method = "PUT" ∨ req.method = "DELETE"
      ∨ req.method = "PATCH"
    if isWrite then
      match req.csrfHeader with
      | none => .response ⟨403, .err "Invalid CSRF token" none⟩
      | some h =>
        if h = "" then .response ⟨403, .err "Invalid CSRF token" none⟩
        else
          match csrf with
          | some c =>
            if h = c then .proceed payload csrf
            else .response ⟨403, .err "Invalid CSRF token" none⟩
          | none => .response ⟨403, .err "Invalid CSRF token" none⟩
    else .proceed payload csrf

/-! ## Characterizations and spec-side definitions used by the theorems -/

/-- The record one iteration of the join loop pushes for an input ID:
the input ID, its resolved universe ID, and the name/visits/icon values the
two lookup maps hold for that universe ID, each defaulting to `null` when
absent. -/
def joinRecord (rf : String → String) (gi : List (String × GameMeta))
    (gc : List (String × JsValue)) (pid : String) : Record :=
  { inputId := pid
    universeId := rf pid
    name := ((objLookup gi (rf pid)).getD ⟨.null, .null⟩).name
    visits := ((objLookup gi (rf pid)).getD ⟨.null, .null⟩).visits
    icon := match objLookup gc (rf pid) with
      | some v => if jsTruthy v then v else .null
      | none => .null }

/-- Sum over a record list of `Math.floor` of each numeric visit count,
records with a non-numeric or null visit count contributing 0. -/
def sumFloorVisits (records : List Record) : Int :=
  records.foldl (fun t r =>
    match r.visits with
    | .num q => t + q.floor
    | _ => t) 0

/-- The contribution of one record to the running total: `Math.floor` of a
numeric visit count, 0 otherwise. -/
def visitFloor (r : Record) : Int :=
  match r.visits with
  | .num q => q.floor
  | _ => 0

/-- `Math.trunc`-style integer truncation (toward zero) of a dyadic
number. -/
def dyTrunc (q : Dy) : Int := Int.tdiv q.m (2 ^ q.e)

/-- Modelled from the spec's words (it is not what the code computes): the
total obtained "using integer truncation of each value before summing",
records with null or non-numeric visit counts contributing 0. -/
def specTruncTotal (records : List Record) : Int :=
  records.foldl (fun t r =>
    match r.visits with
    | .num q => t + dyTrunc q
    | _ => t) 0

/-! ## Concrete fixtures used by witnesses and counterexamples -/

/-- A network oracle for which every call fails at the transport level. -/
def netFail : String → NetOutcome := fun _ => .networkError

/-- Oracle fixture: place 123 resolves to universe 9; the metadata batch for
universe 9 returns name `A` and 102.5 visits; the icon batch returns an
icon URL. -/
def wnet : String → NetOutcome := fun u =>
  if u = urlString (universeUrl "123") then
    .success (.obj (.ofList [("universeId", .num ⟨9, 0⟩)]))
  else if u = urlString (gamesUrl "9") then
    .success (.obj (.ofList [("data", .arr (.ofList
      [.obj (.ofList [("id", .num ⟨9, 0⟩), ("name", .str "A"), ("visits", .num ⟨205, 1⟩)])]))]))
  else if u = urlString (iconsUrl "9") then
    .success (.obj (.ofList [("data", .arr (.ofList
      [.obj (.ofList [("targetId", .num ⟨9, 0⟩), ("imageUrl", .str "http://x")])]))]))
  else .networkError

/-- Request fixture: a GET for `ids=123,abc,123` from 1.2.3.4. -/
def wreq : Req := ⟨"GET", some "1.2.3.4", none, none, some "123,abc,123", none, none⟩

/-- Request fixture with no valid ID token at all. -/
def wreqBadIds : Req := ⟨"GET", some "1.2.3.4", none, none, some "abc, ,123456789012345678901", none, none⟩

/-- Request fixture with only an `x-real-ip` header. -/
def wreqXr : Req := ⟨"GET", none, some " 7.7.7.7 ", none, some "123", none, none⟩

/-- Oracle fixture for the truncation-versus-floor counterexample: the place
lookup for 77 fails (so 77 is its own canonical ID) and the metadata batch
reports a visit count of -1.5 for it. -/
def cxnet : String → NetOutcome := fun u =>
  if u = urlString (gamesUrl "77") then
    .success (.obj (.ofList [("data", .arr (.ofList
      [.obj (.ofList [("id", .str "77"), ("name", .str "N"), ("visits", .num ⟨-3, 1⟩)])]))]))
  else .networkError

/-- Request fixture for the truncation counterexample: `ids=77`. -/
def cxreq : Req := ⟨"GET", some "1.2.3.4", none, none, some "77", none, none⟩

/-- Admin environment fixture: allow-list `"::1"`, a 16-character secret. -/
def axenv : AdminEnv := ⟨some "::1", some "0123456789abcdef"⟩

/-- Verification-oracle fixture: exactly the token `tok` verifies against
the fixture secret. -/
def axverify : String → String → Option JsValue := fun t s =>
  if t = "tok" && s = "0123456789abcdef" then some .null else none

/-- Admin request fixture: a POST from 203.0.113.9 carrying a valid session
cookie, the CSRF cookie `abc`, but the CSRF header `wrong`. -/
def axreqBadCsrf : Req :=
  ⟨"POST", none, none, some "203.0.113.9", none, some "yd_admin=tok; yd_csrf=abc", some "wrong"⟩

/-- Admin request fixture: a GET from 203.0.113.9 with no cookies at all. -/
def axreqNoSession : Req := ⟨"GET", none, none, some "203.0.113.9", none, none, none⟩

/-- Admin environment fixture with an empty allow-list. -/
def axenvEmpty : AdminEnv := ⟨some " , ", some "0123456789abcdef"⟩

end Portfolio

namespace Portfolio

/-! ## Helper lemmas -/

theorem str_empty_isEmpty : ("" : String).isEmpty = true := rfl

theorem str_isEmpty_false {s : String} (h : s ≠ "") : s.isEmpty = false := by
  cases he : s.isEmpty
  · rfl
  · exact absurd ((String.isEmpty_iff s).mp he) h

theorem validateLoop_eq (rs : List String) : ∀ out : List String, out.length < 20 →
    validateLoop rs out = out ++ (((rs.map jsTrim).filter isValidPid).take (20 - out.length)) := by
  induction rs with
  | nil => intro out h; simp [validateLoop]
  | cons r rest ih =>
    intro out h
    simp only [validateLoop]
    by_cases hv : isValidPid (jsTrim r)
    · simp only [hv, if_true]
      by_cases h20 : 20 ≤ (out ++ [jsTrim r]).length
      · rw [if_pos h20]
        have hlen : out.length = 19 := by
          simp only [List.length_append, List.length_cons, List.length_nil] at h20
          omega
        simp [List.filter_cons, hv, hlen]
      · rw [if_neg h20]
        have hlt : (out ++ [jsTrim r]).length < 20 := by omega
        rw [ih _ hlt]
        have harith : 20 - out.length = (20 - (out ++ [jsTrim r]).length) + 1 := by
          simp only [List.length_append, List.length_cons, List.length_nil] at h20 ⊢
          omega
        simp only [List.map_cons, List.filter_cons, hv, if_true, harith,
          List.take_succ_cons, List.append_assoc, List.singleton_append]
    · have hv' : (isValidPid (jsTrim r)) = false := by simpa using hv
      simp only [hv', Bool.false_eq_true, if_false]
      have h20 : ¬ 20 ≤ out.length := by omega
      rw [if_neg h20]
      rw [ih out h]
      simp [List.filter_cons, hv']

theorem validatePlaceIds_eq (s : String) :
    validatePlaceIds s = (((jsSplit ',' s).map jsTrim).filter isValidPid).take 20 := by
  by_cases hs : s = ""
  · subst hs; decide
  · rw [validatePlaceIds, if_neg hs]
    simpa using validateLoop_eq (jsSplit ',' s) [] (by decide)

theorem sumFloorVisits_eq_sum (rs : List Record) :
    sumFloorVisits rs = ((rs.map visitFloor).sum : Int) := by
  suffices h : ∀ t : Int, rs.foldl (fun t r =>
      match r.visits with
      | JsValue.num q => t + q.floor
      | _ => t) t = t + (rs.map visitFloor).sum by
    simpa [sumFloorVisits] using h 0
  induction rs with
  | nil => simp
  | cons r rs ih =>
    intro t
    simp only [List.foldl_cons, List.map_cons, List.sum_cons]
    cases hrv : r.visits <;> simp [visitFloor, hrv, ih, add_assoc]

theorem joinStep_eq (rf : String → String) (gi : List (String × GameMeta))
    (gc : List (String × JsValue)) (acc : List Record × Int) (pid : String) :
    joinStep rf gi gc acc pid
      = (acc.1 ++ [joinRecord rf gi gc pid], acc.2 + visitFloor (joinRecord rf gi gc pid)) := by
  simp only [joinStep, joinRecord, visitFloor]
  cases h : ((objLookup gi (rf pid)).getD ⟨.null, .null⟩).visits <;> simp [h]

theorem joinFold_aux (rf : String → String) (gi : List (String × GameMeta))
    (gc : List (String × JsValue)) (pids : List String) :
    ∀ acc : List Record × Int,
      List.foldl (joinStep rf gi gc) acc pids
        = (acc.1 ++ pids.map (joinRecord rf gi gc),
           acc.2 + ((pids.map (joinRecord rf gi gc)).map visitFloor).sum) := by
  induction pids with
  | nil => intro acc; simp
  | cons p ps ih =>
    intro acc
    rw [List.foldl_cons, joinStep_eq, ih]
    simp [add_assoc]

theorem joinFold_eq (rf : String → String) (gi : List (String × GameMeta))
    (gc : List (String × JsValue)) (pids : List String) :
    joinFold rf gi gc pids
      = (pids.map (joinRecord rf gi gc), sumFloorVisits (pids.map (joinRecord rf gi gc))) := by
  rw [joinFold, joinFold_aux, sumFloorVisits_eq_sum]
  simp

theorem gamesHandler_success (net : String → NetOutcome) (now : Int)
    (rates : List (String × List Int)) (req : Req)
    (hm : req.method = "GET")
    (hrl : (rateLimit ((objLookup rates (getClientIp req)).getD []) now 30 60).1 = true)
    (hne : validatePlaceIds (req.idsParam.getD "") ≠ []) :
    gamesHandler net now rates req =
      (let pids := validatePlaceIds (req.idsParam.getD "")
       let param := String.intercalate "," (uniqueUniverses net pids)
       let gi := buildGameInfo (fetchJson net (gamesUrl param))
       let gc := buildGameIcons (fetchJson net (iconsUrl param))
       let j := joinFold (resolveU net) gi gc pids
       (⟨200, .success j.1 (toString j.2) j.1.length⟩,
        mapSet rates (getClientIp req)
          (rateLimit ((objLookup rates (getClientIp req)).getD []) now 30 60).2,
        pids.map universeUrl ++ [gamesUrl param, iconsUrl param])) := by
  simp [gamesHandler, hm, hrl, hne]

theorem gamesHandler_400_empty (net : String → NetOutcome) (now : Int)
    (rates : List (String × List Int)) (req : Req)
    (hm : req.method = "GET")
    (hrl : (rateLimit ((objLookup rates (getClientIp req)).getD []) now 30 60).1 = true)
    (hempty : validatePlaceIds (req.idsParam.getD "") = []) :
    (gamesHandler net now rates req).1
      = ⟨400, .err "No valid place IDs provided. IDs must be numeric." (some 400)⟩ := by
  simp [gamesHandler, hm, hrl, hempty]

theorem gamesHandler_429 (net : String → NetOutcome) (now : Int)
    (rates : List (String × List Int)) (req : Req)
    (hm : req.method = "GET")
    (h30 : 30 ≤ (((objLookup rates (getClientIp req)).getD []).filter
      (fun t => now - t < 60000)).length) :
    (gamesHandler net now rates req).1
        = ⟨429, .err "Rate limit exceeded. Please try again later." (some 429)⟩ ∧
    (gamesHandler net now rates req).2.2 = [] := by
  have hrl : (rateLimit ((objLookup rates (getClientIp req)).getD []) now 30 60).1 = false := by
    simp only [rateLimit]
    split
    · rfl
    · next hlt => exact absurd h30 hlt
  constructor <;> simp [gamesHandler, hm, hrl]

theorem getClientIp_forwarded (req : Req) (xf : String)
    (h : req.xForwardedFor = some xf) (hne : xf ≠ "") :
    getClientIp req = jsTrim ((jsSplit ',' xf).headD "") := by
  simp [getClientIp, h, hne, String.isEmpty_iff]

theorem getClientIp_realIp (req : Req) (xr : String)
    (h1 : req.xForwardedFor = none ∨ req.xForwardedFor = some "")
    (h2 : req.xRealIp = some xr) (hne : xr ≠ "") : getClientIp req = jsTrim xr := by
  rcases h1 with h1 | h1 <;>
    simp [getClientIp, h1, h2, hne, String.isEmpty_iff, str_empty_isEmpty]

theorem getClientIp_socket (req : Req) (sa : String)
    (h1 : req.xForwardedFor = none ∨ req.xForwardedFor = some "")
    (h2 : req.xRealIp = none ∨ req.xRealIp = some "")
    (h3 : req.socketAddr = some sa) (hne : sa ≠ "") : getClientIp req = sa := by
  rcases h1 with h1 | h1 <;> rcases h2 with h2 | h2 <;>
    simp [getClientIp, h1, h2, h3, hne, String.isEmpty_iff, str_empty_isEmpty]

theorem jsSetDedup_aux_nodup : ∀ (l acc : List String), acc.Nodup →
    (l.foldl (fun acc x => if x ∈ acc then acc else acc ++ [x]) acc).Nodup := by
  intro l
  induction l with
  | nil => intro acc h; simpa using h
  | cons x xs ih =>
    intro acc h
    simp only [List.foldl_cons]
    by_cases hx : x ∈ acc
    · rw [if_pos hx]; exact ih acc h
    · rw [if_neg hx]
      refine ih _ ?_
      simp [List.nodup_append, h, hx]

theorem jsSetDedup_aux_mem : ∀ (l acc : List String) (a : String),
    a ∈ l.foldl (fun acc x => if x ∈ acc then acc else acc ++ [x]) acc ↔ a ∈ acc ∨ a ∈ l := by
  intro l
  induction l with
  | nil => intro acc a; simp
  | cons x xs ih =>
    intro acc a
    simp only [List.foldl_cons, List.mem_cons]
    by_cases hx : x ∈ acc
    · rw [if_pos hx, ih]
      constructor
      · tauto
      · rintro (h | h | h) <;> try tauto
        subst h; tauto
    · rw [if_neg hx, ih]
      simp [List.mem_append]
      tauto

theorem jsSetDedup_nodup (l : List String) : (jsSetDedup l).Nodup :=
  jsSetDedup_aux_nodup l [] (by simp)

theorem jsSetDedup_mem (l : List String) (a : String) : a ∈ jsSetDedup l ↔ a ∈ l := by
  rw [jsSetDedup, jsSetDedup_aux_mem]; simp

theorem insertAsc_mem (x : String) : ∀ (l : List String) (a : String),
    a ∈ insertAsc x l ↔ a = x ∨ a ∈ l := by
  intro l
  induction l with
  | nil => intro a; simp [insertAsc]
  | cons y ys ih =>
    intro a
    simp only [insertAsc]
    split
    · simp
    · simp only [List.mem_cons, ih]
      tauto

theorem sortByKeyVal_mem : ∀ (l : List String) (a : String),
    a ∈ sortByKeyVal l ↔ a ∈ l := by
  intro l
  induction l with
  | nil => intro a; simp [sortByKeyVal]
  | cons x xs ih =>
    intro a
    simp only [sortByKeyVal, insertAsc_mem, ih, List.mem_cons]

theorem objectKeyOrder_mem (ks : List String) (a : String) :
    a ∈ objectKeyOrder ks ↔ a ∈ ks := by
  simp only [objectKeyOrder, List.mem_append, sortByKeyVal_mem, List.mem_filter]
  by_cases hp : isArrayIndexKey a = true <;> simp [hp]

theorem uniqueUniverses_mem (net : String → NetOutcome) (pids : List String) (u : String) :
    u ∈ uniqueUniverses net pids ↔ ∃ pid ∈ pids, resolveU net pid = u := by
  rw [uniqueUniverses, jsSetDedup_mem, universeValuesList]
  simp only [List.mem_map]
  constructor
  · rintro ⟨k, hk, rfl⟩
    exact ⟨k, (jsSetDedup_mem _ _).mp ((objectKeyOrder_mem _ _).mp hk), rfl⟩
  · rintro ⟨k, hk, rfl⟩
    exact ⟨k, (objectKeyOrder_mem _ _).mpr ((jsSetDedup_mem _ _).mpr hk), rfl⟩

theorem jsTruthy_of_getField {d : JsValue} {k : String} {v : JsValue}
    (h : getField d k = some v) : jsTruthy d = true := by
  cases d <;> first | rfl | simp [getField] at h

theorem isIpAllowed_iff (env : AdminEnv) (req : Req) :
    isIpAllowed env req = true ↔
      (getClientIp req ∈ parseAllowlist env ∨ "::1" ∈ parseAllowlist env
        ∨ "127.0.0.1" ∈ parseAllowlist env) := by
  rw [isIpAllowed]
  by_cases he : (parseAllowlist env).isEmpty
  · have hnil : parseAllowlist env = [] := by simpa using he
    simp [he, hnil]
  · simp only [he, Bool.false_eq_true, if_false]
    simp [List.elem_iff, or_assoc]

theorem pctDecodeChars_id : ∀ cs : List Char, '%' ∉ cs → pctDecodeChars cs = cs := by
  intro cs
  induction cs with
  | nil => intro _; rfl
  | cons c rest ih =>
    intro h
    have hc : c ≠ '%' := fun e => h (e ▸ List.mem_cons_self c rest)
    have hr : '%' ∉ rest := fun hm => h (List.mem_cons_of_mem c hm)
    rw [pctDecodeChars.eq_def]
    split
    · rename_i heq
      exact List.noConfusion heq
    · rename_i heq
      exact absurd (List.cons.inj heq).1 hc
    · rename_i heq
      obtain ⟨h1, h2⟩ := List.cons.inj heq
      rw [← h1, ← h2, ih hr]

theorem pctDecode_id (s : String) (h : '%' ∉ s.data) : pctDecode s = s := by
  rw [pctDecode, pctDecodeChars_id s.data h]

end Portfolio

namespace Portfolio

/-! ## Claim theorems -/

/-- C1: for every request whose retained ID list is non-empty and whose
processing completes (method GET, rate limit passed), the returned data
array contains exactly one result record per retained input identifier
(duplicates included), ordered exactly as in the caller's input, each record
carrying the input ID, its canonical universe ID, and name/visit-count/icon
values joined by canonical ID, with null for any value missing from the
metadata or icon lookup maps. -/
theorem c1_result_records_join_input_order (net : String → NetOutcome) (now : Int)
    (rates : List (String × List Int)) (req : Req)
    (hm : req.method = "GET")
    (hrl : (rateLimit ((objLookup rates (getClientIp req)).getD []) now 30 60).1 = true)
    (hne : validatePlaceIds (req.idsParam.getD "") ≠ []) :
    let pids := validatePlaceIds (req.idsParam.getD "")
    let param := String.intercalate "," (uniqueUniverses net pids)
    let gi := buildGameInfo (fetchJson net (gamesUrl param))
    let gc := buildGameIcons (fetchJson net (iconsUrl param))
    ∃ tv, (gamesHandler net now rates req).1 =
      ⟨200, .success (pids.map (fun pid =>
        { inputId := pid
          universeId := resolveU net pid
          name := ((objLookup gi (resolveU net pid)).getD ⟨.null, .null⟩).name
          visits := ((objLookup gi (resolveU net pid)).getD ⟨.null, .null⟩).visits
          icon := match objLookup gc (resolveU net pid) with
            | some v => if jsTruthy v then v else .null
            | none => .null })) tv pids.length⟩ := by
  intro pids param gi gc
  refine ⟨toString (joinFold (resolveU net) gi gc pids).2, ?_⟩
  rw [gamesHandler_success net now rates req hm hrl hne]
  simp only [joinFold_eq, List.length_map]
  rfl

/-- Witness for C1 at a concrete request (`ids=123,abc,123`) and network
oracle. -/
theorem c1_result_records_join_input_order_witness :
    let pids := validatePlaceIds (wreq.idsParam.getD "")
    let param := String.intercalate "," (uniqueUniverses wnet pids)
    let gi := buildGameInfo (fetchJson wnet (gamesUrl param))
    let gc := buildGameIcons (fetchJson wnet (iconsUrl param))
    ∃ tv, (gamesHandler wnet 0 [] wreq).1 =
      ⟨200, .success (pids.map (fun pid =>
        { inputId := pid
          universeId := resolveU wnet pid
          name := ((objLookup gi (resolveU wnet pid)).getD ⟨.null, .null⟩).name
          visits := ((objLookup gi (resolveU wnet pid)).getD ⟨.null, .null⟩).visits
          icon := match objLookup gc (resolveU wnet pid) with
            | some v => if jsTruthy v then v else .null
            | none => .null })) tv pids.length⟩ :=
  c1_result_records_join_input_order wnet 0 [] wreq rfl (by decide) (by decide)

/-- C2 (amended): in every successful response whose floored visit counts
accumulate within the doubles' exact-integer range - every partial running
total (each prefix of the output record list) has magnitude at most 2^53 -
`totalVisits` is the decimal string of the sum, over records with a numeric
visit count, of the FLOOR of that visit count (the code uses `Math.floor`,
which differs from the claimed truncation on negative non-integers); null
or non-numeric visit counts contribute 0.  Within that range IEEE double
addition of these integer values is exact and `String(total)` prints the
plain decimal form (exponential notation starts only at 10^21), so the
embedding's exact-integer accumulator coincides with the program's double
accumulator; beyond 2^53 the program's `total += ...` rounds (e.g. visits
9007199254740991 and 2 answer "9007199254740992"), so no totalVisits value
is asserted there. -/
theorem c2_totalVisits_floor_sum (net : String → NetOutcome) (now : Int)
    (rates : List (String × List Int)) (req : Req)
    (hm : req.method = "GET")
    (hrl : (rateLimit ((objLookup rates (getClientIp req)).getD []) now 30 60).1 = true)
    (hne : validatePlaceIds (req.idsParam.getD "") ≠ []) :
    let pids := validatePlaceIds (req.idsParam.getD "")
    let param := String.intercalate "," (uniqueUniverses net pids)
    let gi := buildGameInfo (fetchJson net (gamesUrl param))
    let gc := buildGameIcons (fetchJson net (iconsUrl param))
    let data := pids.map (joinRecord (resolveU net) gi gc)
    (∀ n, n ≤ data.length → (sumFloorVisits (data.take n)).natAbs ≤ 2 ^ 53) →
    (gamesHandler net now rates req).1
      = ⟨200, .success data (toString (sumFloorVisits data)) data.length⟩ := by
  intro pids param gi gc data _hbound
  rw [gamesHandler_success net now rates req hm hrl hne]
  simp only [joinFold_eq]

/-- Witness for C2's amended theorem at a concrete request and oracle whose
partial totals (0, 102, 204) stay far inside the exact range. -/
theorem c2_totalVisits_floor_sum_witness :
    let pids := validatePlaceIds (wreq.idsParam.getD "")
    let param := String.intercalate "," (uniqueUniverses wnet pids)
    let gi := buildGameInfo (fetchJson wnet (gamesUrl param))
    let gc := buildGameIcons (fetchJson wnet (iconsUrl param))
    let data := pids.map (joinRecord (resolveU wnet) gi gc)
    (gamesHandler wnet 0 [] wreq).1
      = ⟨200, .success data (toString (sumFloorVisits data)) data.length⟩ :=
  c2_totalVisits_floor_sum wnet 0 [] wreq rfl (by decide) (by decide) (by decide)

/-- C2 counterexample: with an upstream visit count of -1.5 the code's
`Math.floor` accumulation yields `totalVisits = "-2"`, while the claimed
integer truncation would yield -1 (stringified "-1"): the claim's
truncation-based total disagrees with the code on this input. -/
theorem c2_truncation_counterexample :
    (gamesHandler cxnet 0 [] cxreq).1
      = ⟨200, .success [⟨"77", "77", .str "N", .num ⟨-3, 1⟩, .null⟩] "-2" 1⟩ ∧
    sumFloorVisits [⟨"77", "77", .str "N", .num ⟨-3, 1⟩, .null⟩] = -2 ∧
    specTruncTotal [⟨"77", "77", .str "N", .num ⟨-3, 1⟩, .null⟩] = -1 ∧
    toString (-2 : Int) ≠ toString (-1 : Int) :=
  ⟨rfl, by decide, by decide, by decide⟩

/-- C3: the retained identifier list is exactly the comma-split, trimmed
tokens matching the 1-to-20-digit pattern, in order, capped at the first 20;
and a GET request (within the rate limit) whose retained list is empty gets
the 400 `No valid place IDs provided` error response, never an empty
success. -/
theorem c3_id_validation_and_empty_400 :
    (∀ s, validatePlaceIds s = (((jsSplit ',' s).map jsTrim).filter isValidPid).take 20) ∧
    (∀ (net : String → NetOutcome) (now : Int) (rates : List (String × List Int)) (req : Req),
      req.method = "GET" →
      (rateLimit ((objLookup rates (getClientIp req)).getD []) now 30 60).1 = true →
      validatePlaceIds (req.idsParam.getD "") = [] →
      (gamesHandler net now rates req).1
        = ⟨400, .err "No valid place IDs provided. IDs must be numeric." (some 400)⟩) :=
  ⟨validatePlaceIds_eq, gamesHandler_400_empty⟩

/-- Witness for C3 at the empty string and at a concrete request whose
tokens are all malformed. -/
theorem c3_id_validation_and_empty_400_witness :
    validatePlaceIds "" = (((jsSplit ',' "").map jsTrim).filter isValidPid).take 20 ∧
    (gamesHandler netFail 0 [] wreqBadIds).1
      = ⟨400, .err "No valid place IDs provided. IDs must be numeric." (some 400)⟩ :=
  ⟨c3_id_validation_and_empty_400.1 "",
   c3_id_validation_and_empty_400.2 netFail 0 [] wreqBadIds rfl (by decide) (by decide)⟩

end Portfolio

namespace Portfolio

/-- C4: observed admin-gate behaviour on the three session-validity
conditions.  The claim (and the spec, the `requireAdminOr404` name, and the
callers' stealth comments) says every failure yields an indistinguishable
404; the code instead (a) answers a CSRF mismatch on a write with a
distinguishable 403 `Invalid CSRF token`, and (b) for address/session
failures returns with `ended` set but no response ever written, so the
callers' 404 branch is dead code. -/
theorem c4_admin_gate_observed_behavior :
    adminEndpointGate axenv axverify axreqBadCsrf
      = .response ⟨403, .err "Invalid CSRF token" none⟩ ∧
    requireAdmin axenv axverify axreqBadCsrf = .ok .null (some "abc") ∧
    adminEndpointGate axenv axverify axreqNoSession = .noResponse ∧
    (∀ r : Response, adminEndpointGate axenv axverify axreqBadCsrf = .response r →
      r.status ≠ 404) := by
  refine ⟨rfl, rfl, rfl, ?_⟩
  intro r h
  cases h
  decide

/-- C5: the rate-limit key is the first forwarded-for value, else the
real-ip header, else the peer address; and a GET request from an address
with 30 fresh timestamps in its bucket is answered 429 with the error
envelope and no outbound call, whatever its `ids` parameter. -/
theorem c5_rate_limit_429_before_processing :
    (∀ (req : Req) (xf : String), req.xForwardedFor = some xf → xf ≠ "" →
      getClientIp req = jsTrim ((jsSplit ',' xf).headD "")) ∧
    (∀ (req : Req) (xr : String), (req.xForwardedFor = none ∨ req.xForwardedFor = some "") →
      req.xRealIp = some xr → xr ≠ "" → getClientIp req = jsTrim xr) ∧
    (∀ (req : Req) (sa : String), (req.xForwardedFor = none ∨ req.xForwardedFor = some "") →
      (req.xRealIp = none ∨ req.xRealIp = some "") → req.socketAddr = some sa → sa ≠ "" →
      getClientIp req = sa) ∧
    (∀ (net : String → NetOutcome) (now : Int) (rates : List (String × List Int)) (req : Req),
      req.method = "GET" →
      30 ≤ (((objLookup rates (getClientIp req)).getD []).filter
        (fun t => now - t < 60000)).length →
      (gamesHandler net now rates req).1
          = ⟨429, .err "Rate limit exceeded. Please try again later." (some 429)⟩ ∧
      (gamesHandler net now rates req).2.2 = []) :=
  ⟨getClientIp_forwarded, getClientIp_realIp, getClientIp_socket, gamesHandler_429⟩

/-- Witness for C5: each address-extraction case at a concrete request, and
the 429 with no outbound calls for a 31st request within the window. -/
theorem c5_rate_limit_429_before_processing_witness :
    getClientIp wreq = jsTrim ((jsSplit ',' "1.2.3.4").headD "") ∧
    getClientIp wreqXr = jsTrim " 7.7.7.7 " ∧
    getClientIp axreqNoSession = "203.0.113.9" ∧
    ((gamesHandler netFail 1 [("1.2.3.4", List.replicate 30 0)] wreq).1
        = ⟨429, .err "Rate limit exceeded. Please try again later." (some 429)⟩ ∧
      (gamesHandler netFail 1 [("1.2.3.4", List.replicate 30 0)] wreq).2.2 = []) :=
  ⟨c5_rate_limit_429_before_processing.1 wreq "1.2.3.4" rfl (by decide),
   c5_rate_limit_429_before_processing.2.1 wreqXr " 7.7.7.7 " (Or.inl rfl) rfl (by decide),
   c5_rate_limit_429_before_processing.2.2.1 axreqNoSession "203.0.113.9"
     (Or.inl rfl) (Or.inl rfl) rfl (by decide),
   c5_rate_limit_429_before_processing.2.2.2 netFail 1 [("1.2.3.4", List.replicate 30 0)]
     wreq rfl (by decide)⟩

/-- C6: a URL whose host is outside the fixed allow-list makes `fetchJson`
return null without the fetch ever being attempted; every non-success fetch
outcome (non-2xx, redirect, timeout, network error, malformed body) also
yields null; and the dependent fields degrade to their defaults
(canonical-ID fallback, empty lookup maps, null record fields). -/
theorem c6_host_allowlist_guard :
    (∀ (net : String → NetOutcome) (u : Url), u.host ∉ ALLOWED_HOSTS →
      fetchJson net u = none ∧ fetchAttempted u = false) ∧
    (∀ (net : String → NetOutcome) (u : Url), net (urlString u) = .httpError →
      fetchJson net u = none) ∧
    (∀ (net : String → NetOutcome) (u : Url), net (urlString u) = .redirected →
      fetchJson net u = none) ∧
    (∀ (net : String → NetOutcome) (u : Url), net (urlString u) = .timedOut →
      fetchJson net u = none) ∧
    (∀ (net : String → NetOutcome) (u : Url), net (urlString u) = .networkError →
      fetchJson net u = none) ∧
    (∀ (net : String → NetOutcome) (u : Url), net (urlString u) = .malformedBody →
      fetchJson net u = none) ∧
    (∀ pid, placeToUniverseId pid none = pid) ∧
    buildGameInfo none = [] ∧ buildGameIcons none = [] ∧
    (∀ (rf : String → String) (acc : List Record × Int) (pid : String),
      joinStep rf [] [] acc pid = (acc.1 ++ [⟨pid, rf pid, .null, .null, .null⟩], acc.2)) := by
  refine ⟨?_, ?_, ?_, ?_, ?_, ?_, fun pid => rfl, rfl, rfl, fun rf acc pid => rfl⟩
  · intro net u h
    constructor
    · rw [fetchJson, if_neg h]
    · simp [fetchAttempted, h]
  all_goals
    intro net u h
    rw [fetchJson]
    split
    · rw [h]
    · rfl

/-- Witness for C6 at a non-allow-listed host and at each failing outcome. -/
theorem c6_host_allowlist_guard_witness :
    (fetchJson (fun _ => .success .null) ⟨"evil.example", "/x"⟩ = none ∧
      fetchAttempted ⟨"evil.example", "/x"⟩ = false) ∧
    fetchJson (fun _ => .httpError) (gamesUrl "1") = none ∧
    fetchJson (fun _ => .redirected) (gamesUrl "1") = none ∧
    fetchJson (fun _ => .timedOut) (gamesUrl "1") = none ∧
    fetchJson (fun _ => .networkError) (gamesUrl "1") = none ∧
    fetchJson (fun _ => .malformedBody) (gamesUrl "1") = none ∧
    placeToUniverseId "7" none = "7" ∧
    joinStep id [] [] ([], 0) "7" = ([⟨"7", "7", .null, .null, .null⟩], 0) :=
  ⟨c6_host_allowlist_guard.1 _ _ (by decide),
   c6_host_allowlist_guard.2.1 _ _ rfl,
   c6_host_allowlist_guard.2.2.1 _ _ rfl,
   c6_host_allowlist_guard.2.2.2.1 _ _ rfl,
   c6_host_allowlist_guard.2.2.2.2.1 _ _ rfl,
   c6_host_allowlist_guard.2.2.2.2.2.1 _ _ rfl,
   c6_host_allowlist_guard.2.2.2.2.2.2.1 "7",
   c6_host_allowlist_guard.2.2.2.2.2.2.2.2.2 id ([], 0) "7"⟩

end Portfolio

namespace Portfolio

/-- C7: canonical-ID resolution returns the stringified upstream
`universeId` exactly when the lookup succeeds with a numeric or all-digit
string `universeId`; in every other case (fetch failure, falsy body, absent
or differently-shaped field, non-digit string) it returns the original
identifier unchanged; and the fallback never surfaces as a request error:
with a network oracle on which every call fails, the handler still answers
200.  The numeric case is stated for integer values of magnitude at most
2^53, where JS `String(universeId)` is provably the plain decimal integer
string `toString q.m`; this covers every universe ID the upstream API can
produce, while for other doubles JS prints shortest-round-trip or
exponential forms that the embedding does not model. -/
theorem c7_canonical_resolution_fallback :
    (∀ pid, placeToUniverseId pid none = pid) ∧
    (∀ (pid : String) (d : JsValue) (q : Dy), getField d "universeId" = some (.num q) →
      q.e = 0 → q.m.natAbs ≤ 2 ^ 53 →
      placeToUniverseId pid (some d) = toString q.m) ∧
    (∀ (pid : String) (d : JsValue) (s : String), getField d "universeId" = some (.str s) →
      s ≠ "" → s.data.all Char.isDigit = true → placeToUniverseId pid (some d) = s) ∧
    (∀ (pid : String) (d : JsValue) (s : String), getField d "universeId" = some (.str s) →
      ¬(s ≠ "" ∧ s.data.all Char.isDigit = true) → placeToUniverseId pid (some d) = pid) ∧
    (∀ (pid : String) (d : JsValue), (∀ q, getField d "universeId" ≠ some (.num q)) →
      (∀ s, getField d "universeId" ≠ some (.str s)) →
      placeToUniverseId pid (some d) = pid) ∧
    (∀ (now : Int) (rates : List (String × List Int)) (req : Req),
      req.method = "GET" →
      (rateLimit ((objLookup rates (getClientIp req)).getD []) now 30 60).1 = true →
      validatePlaceIds (req.idsParam.getD "") ≠ [] →
      ((gamesHandler netFail now rates req).1).status = 200) := by
  refine ⟨fun pid => rfl, ?_, ?_, ?_, ?_, ?_⟩
  · intro pid d q hf he _hb
    have ht := jsTruthy_of_getField hf
    obtain ⟨m, e⟩ := q
    simp only at he
    subst he
    simp only [placeToUniverseId, ht, if_true, hf]
    rw [jsNumToString]
    simp only [pow_zero, Nat.div_one, Nat.mod_one, if_true]
    cases m with
    | ofNat n =>
      rw [if_neg (show ¬ Int.ofNat n < 0 from Int.not_lt.mpr (Int.ofNat_nonneg n))]
      rfl
    | negSucc n =>
      rw [if_pos (show Int.negSucc n < 0 from Int.negSucc_lt_zero n)]
      rfl
  · intro pid d s h hne hdig
    have : (!s.isEmpty && s.data.all Char.isDigit) = true := by
      simp [hdig, str_isEmpty_false hne]
    simp [placeToUniverseId, jsTruthy_of_getField h, h, this]
  · intro pid d s h hno
    have : (!s.isEmpty && s.data.all Char.isDigit) = false := by
      rw [Bool.and_eq_false_iff]
      by_cases hs : s = ""
      · left; subst hs; rfl
      · right
        by_cases hd : s.data.all Char.isDigit = true
        · exact absurd ⟨hs, hd⟩ hno
        · simpa using hd
    simp [placeToUniverseId, jsTruthy_of_getField h, h, this]
  · intro pid d hq hs
    rw [placeToUniverseId]
    split
    · cases hf : getField d "universeId" with
      | none => rfl
      | some v =>
        cases v with
        | num q => exact absurd hf (hq q)
        | str s => exact absurd hf (hs s)
        | null => rfl
        | bool b => rfl
        | arr xs => rfl
        | obj o => rfl
    · rfl
  · intro now rates req hm hrl hne
    rw [gamesHandler_success netFail now rates req hm hrl hne]

/-- Witness for C7 at concrete lookup bodies and a concrete all-failing
request. -/
theorem c7_canonical_resolution_fallback_witness :
    placeToUniverseId "5" (some (.obj (.ofList [("universeId", .num ⟨42, 0⟩)]))) = "42" ∧
    placeToUniverseId "5" (some (.obj (.ofList [("universeId", .str "314")]))) = "314" ∧
    placeToUniverseId "5" (some (.obj (.ofList [("universeId", .str "31x")]))) = "5" ∧
    placeToUniverseId "5" (some (.obj (.ofList [("universeId", .bool true)]))) = "5" ∧
    ((gamesHandler netFail 0 [] wreq).1).status = 200 :=
  ⟨c7_canonical_resolution_fallback.2.1 "5" _ ⟨42, 0⟩ rfl rfl (by decide),
   c7_canonical_resolution_fallback.2.2.1 "5" _ "314" rfl (by decide) (by decide),
   c7_canonical_resolution_fallback.2.2.2.1 "5" _ "31x" rfl
     (by intro hcon; exact absurd hcon.2 (by decide)),
   c7_canonical_resolution_fallback.2.2.2.2.1 "5" _
     (fun q h => JsValue.noConfusion (Option.some.inj h))
     (fun s h => JsValue.noConfusion (Option.some.inj h)),
   c7_canonical_resolution_fallback.2.2.2.2.2 0 [] wreq rfl (by decide) (by decide)⟩

end Portfolio

namespace Portfolio

/-- C8: on the success path, the attempted outbound calls are exactly one
universe lookup per retained place ID followed by one metadata batch call
and one icon batch call; the `universeIds` parameter of both batch calls is
the comma-join of a duplicate-free list containing exactly the distinct
canonical identifiers of the retained place IDs. -/
theorem c8_batch_calls_deduplicated (net : String → NetOutcome) (now : Int)
    (rates : List (String × List Int)) (req : Req)
    (hm : req.method = "GET")
    (hrl : (rateLimit ((objLookup rates (getClientIp req)).getD []) now 30 60).1 = true)
    (hne : validatePlaceIds (req.idsParam.getD "") ≠ []) :
    let pids := validatePlaceIds (req.idsParam.getD "")
    let uniq := uniqueUniverses net pids
    let param := String.intercalate "," uniq
    let calls := (gamesHandler net now rates req).2.2
    calls = pids.map universeUrl ++ [gamesUrl param, iconsUrl param] ∧
    uniq.Nodup ∧
    (∀ u, u ∈ uniq ↔ ∃ pid ∈ pids, resolveU net pid = u) ∧
    (calls.filter (fun c => c.host == "games.roblox.com")).length = 1 ∧
    (calls.filter (fun c => c.host == "thumbnails.roblox.com")).length = 1 := by
  intro pids uniq param calls
  have hc : calls = pids.map universeUrl ++ [gamesUrl param, iconsUrl param] := by
    show (gamesHandler net now rates req).2.2 = _
    rw [gamesHandler_success net now rates req hm hrl hne]
  refine ⟨hc, jsSetDedup_nodup _, fun u => uniqueUniverses_mem net pids u, ?_, ?_⟩
  · rw [hc, List.filter_append]
    have h1 : (pids.map universeUrl).filter (fun c => c.host == "games.roblox.com") = [] := by
      induction pids with
      | nil => rfl
      | cons p ps ih =>
        have hp : ((universeUrl p).host == "games.roblox.com") = false := rfl
        simp only [List.map_cons, List.filter_cons, hp, Bool.false_eq_true, if_false]
        exact ih
    rw [h1]
    rfl
  · rw [hc, List.filter_append]
    have h1 : (pids.map universeUrl).filter (fun c => c.host == "thumbnails.roblox.com") = [] := by
      induction pids with
      | nil => rfl
      | cons p ps ih =>
        have hp : ((universeUrl p).host == "thumbnails.roblox.com") = false := rfl
        simp only [List.map_cons, List.filter_cons, hp, Bool.false_eq_true, if_false]
        exact ih
    rw [h1]
    rfl

/-- Witness for C8 at a concrete request with a duplicated input ID. -/
theorem c8_batch_calls_deduplicated_witness :
    let pids := validatePlaceIds (wreq.idsParam.getD "")
    let uniq := uniqueUniverses wnet pids
    let param := String.intercalate "," uniq
    let calls := (gamesHandler wnet 0 [] wreq).2.2
    calls = pids.map universeUrl ++ [gamesUrl param, iconsUrl param] ∧
    uniq.Nodup ∧
    (∀ u, u ∈ uniq ↔ ∃ pid ∈ pids, resolveU wnet pid = u) ∧
    (calls.filter (fun c => c.host == "games.roblox.com")).length = 1 ∧
    (calls.filter (fun c => c.host == "thumbnails.roblox.com")).length = 1 :=
  c8_batch_calls_deduplicated wnet 0 [] wreq rfl (by decide) (by decide)

/-- C9 (amended): `requireAdmin` fails with reason `ip` whenever the
configured allow-list is empty or unset (fail-closed); and, on requests
whose cookie header is free of percent-escapes - the domain on which the
embedded cookie decoder is provably the identity (third conjunct), exactly
as the real `decodeURIComponent` is, whereas a malformed escape makes the
real `parseCookies` throw a `URIError` that `requireAdmin` does not catch -
it succeeds ONLY WHEN the address condition holds (the caller's extracted
address is listed, or the allow-list itself contains `::1` or `127.0.0.1`,
which admits every address) and a 16-plus-character secret is configured
and a non-empty session-cookie token is present that the verification
oracle accepts.  (The claim's "succeeds only when the caller's address is a
member of the allow-list" fails: listing `::1` or `127.0.0.1` admits every
address.) -/
theorem c9_requireAdmin_conditions (env : AdminEnv)
    (verify : String → String → Option JsValue) (req : Req) :
    (parseAllowlist env = [] → requireAdmin env verify req = .fail "ip") ∧
    ('%' ∉ (req.cookieHeader.getD "").data →
      (∃ p c, requireAdmin env verify req = .ok p c) →
      ((getClientIp req ∈ parseAllowlist env ∨ "::1" ∈ parseAllowlist env
          ∨ "127.0.0.1" ∈ parseAllowlist env) ∧
       ∃ s, getJwtSecret env = some s ∧
        ∃ t, objLookup (parseCookies (req.cookieHeader.getD "")) "yd_admin" = some t ∧ t ≠ "" ∧
         ∃ p, verify t s = some p)) ∧
    (∀ h : String, '%' ∉ h.data → pctDecode h = h) := by
  refine ⟨?_, ?_, pctDecode_id⟩
  · intro hnil
    have : isIpAllowed env req = false := by
      rw [isIpAllowed]
      simp [hnil]
    simp [requireAdmin, this]
  · rintro _hpc ⟨p, c, h⟩
    rw [requireAdmin] at h
    by_cases hip : isIpAllowed env req = true
    · rw [hip] at h
      simp only [Bool.not_true, Bool.false_eq_true, if_false] at h
      split at h
      · simp at h
      · next s hsec =>
        split at h
        · simp at h
        · next t htok =>
          split at h
          · simp at h
          · next ht =>
            split at h
            · next p2 hver =>
              cases h
              exact ⟨(isIpAllowed_iff env req).mp hip, s, hsec, t, htok, ht, _, hver⟩
            · simp at h
    · have : isIpAllowed env req = false := by simpa using hip
      rw [this] at h
      simp at h

/-- Witness for C9's amended theorem: fail-closed on an empty allow-list;
the necessary conditions extracted from a concrete percent-free successful
request; and the decoder identity at a concrete percent-free header. -/
theorem c9_requireAdmin_conditions_witness :
    requireAdmin axenvEmpty axverify axreqNoSession = .fail "ip" ∧
    ((getClientIp axreqBadCsrf ∈ parseAllowlist axenv ∨ "::1" ∈ parseAllowlist axenv
        ∨ "127.0.0.1" ∈ parseAllowlist axenv) ∧
      ∃ s, getJwtSecret axenv = some s ∧
       ∃ t, objLookup (parseCookies (axreqBadCsrf.cookieHeader.getD "")) "yd_admin" = some t ∧
        t ≠ "" ∧ ∃ p, axverify t s = some p) ∧
    pctDecode "yd_admin=tok; yd_csrf=abc" = "yd_admin=tok; yd_csrf=abc" :=
  ⟨(c9_requireAdmin_conditions axenvEmpty axverify axreqNoSession).1 (by decide),
   (c9_requireAdmin_conditions axenv axverify axreqBadCsrf).2.1 (by decide)
     ⟨.null, some "abc", rfl⟩,
   (c9_requireAdmin_conditions axenv axverify axreqBadCsrf).2.2
     "yd_admin=tok; yd_csrf=abc" (by decide)⟩

/-- C9 counterexample: with allow-list `::1`, a caller at 203.0.113.9 - not
a member of the allow-list - still gets a successful `requireAdmin` (given a
valid session token), refuting "succeeds only when the caller's extracted
address is a member of the configured allow-list". -/
theorem c9_allowlist_backdoor_counterexample :
    (∃ p c, requireAdmin axenv axverify axreqBadCsrf = .ok p c) ∧
    getClientIp axreqBadCsrf ∉ parseAllowlist axenv :=
  ⟨⟨.null, some "abc", rfl⟩, by decide⟩

/-- C10: a rate-limiter bucket holding at most 30 timestamps still holds at
most 30 after any `rateLimit` call, and a denied call leaves the bucket
equal to its pruned form (entries outside the 60-second window removed, the
denied request's timestamp not recorded). -/
theorem c10_rate_limiter_bucket_invariant :
    (∀ (bucket : List Int) (now : Int), bucket.length ≤ 30 →
      ((rateLimit bucket now 30 60).2).length ≤ 30) ∧
    (∀ (bucket : List Int) (now : Int), (rateLimit bucket now 30 60).1 = false →
      (rateLimit bucket now 30 60).2 = bucket.filter (fun t => now - t < 60000)) := by
  constructor
  · intro bucket now h
    simp only [rateLimit]
    split
    · exact le_trans (List.length_filter_le _ _) h
    · next hlt =>
      simp only [List.length_append, List.length_cons, List.length_nil]
      omega
  · intro bucket now h
    simp only [rateLimit] at h ⊢
    split at h
    · next hge =>
      rw [if_pos hge]
      norm_num
    · simp at h

/-- Witness for C10: an admitted call on a small bucket and a denied call on
a full bucket. -/
theorem c10_rate_limiter_bucket_invariant_witness :
    (([0] : List Int).length ≤ 30 ∧ ((rateLimit [0] 1 30 60).2).length ≤ 30) ∧
    ((rateLimit (List.replicate 30 0) 1 30 60).1 = false ∧
      (rateLimit (List.replicate 30 0) 1 30 60).2
        = (List.replicate 30 0).filter (fun t => 1 - t < 60000)) :=
  ⟨⟨by decide, c10_rate_limiter_bucket_invariant.1 [0] 1 (by decide)⟩,
   ⟨by decide, c10_rate_limiter_bucket_invariant.2 (List.replicate 30 0) 1 (by decide)⟩⟩

end Portfolio

namespace Portfolio

/-- Witness for C4's universally quantified conjunct at the response the
gate actually writes. -/
theorem c4_admin_gate_observed_behavior_witness :
    (⟨403, .err "Invalid CSRF token" none⟩ : Response).status ≠ 404 :=
  c4_admin_gate_observed_behavior.2.2.2 ⟨403, .err "Invalid CSRF token" none⟩ rfl

end Portfolio
